import Mathlib

/-!
Shallow embedding of `src/SI_app.py` (solar-cell tester GUI for a Keithley
2401 SourceMeter).

Modelling conventions:
* Python floats are modelled as exact rationals (`ℚ`).  The program performs
  no arithmetic on measured values — it only parses decimal tokens, stores
  them, and re-formats them with printf-style format strings — so the exact
  rational carrying the decimal value is a faithful carrier.  Rationals are
  always built with `mkRat` (kernel-reducible), never with `/` on `ℚ`.
* Python strings are `String` / `List Char`; `str.split(',')` is `splitCh`.
* `float(...)` is `parseFloat`: optional sign, then digits with an optional
  single decimal point (the fragment of Python float syntax the instrument
  produces); anything else is a parse error (Python `ValueError`).
* Printf `"%0.<p>f"` is `fmtFixedL` (round-half-even to `p` decimals, as
  Python does) and `"%0.<p>g"` is `fmtGL` (`p` significant digits, fixed or
  scientific notation depending on the exponent, trailing zeros stripped).
* The Qt GUI, pyvisa session and matplotlib graph are modelled by an event
  log plus boolean enabled-flags; the mutable module globals become the
  fields of an explicit state record `PState`.
-/

namespace SIApp

/-- Decimal digit character (`'0'`-`'9'`) for `n % 10`. -/
def digitChar10 (n : Nat) : Char := Char.ofNat (48 + n % 10)

/-- Decimal digits of a natural number, most significant first (fuel-based so
that it reduces in the kernel). -/
def natToDecAux : Nat → Nat → List Char → List Char
  | 0, _, acc => acc
  | fuel+1, n, acc =>
      if n < 10 then digitChar10 n :: acc
      else natToDecAux fuel (n / 10) (digitChar10 (n % 10) :: acc)

/-- Decimal digits of a natural number, e.g. `natToDec 120 = ['1','2','0']`. -/
def natToDec (n : Nat) : List Char := natToDecAux (n+1) n []

/-- Fuel-based `⌊log₁₀ n⌋` (`0` for `n = 0`), kernel-reducible. -/
def natLog10Aux : Nat → Nat → Nat
  | 0, _ => 0
  | fuel+1, n => if n < 10 then 0 else natLog10Aux fuel (n / 10) + 1

/-- Floor of `log₁₀ n` for `n ≥ 1`. -/
def natLog10 (n : Nat) : Nat := natLog10Aux n n

/-- Round `a / d` (with `d > 0`) to the nearest integer, ties to even — the
rounding used by printf-style (Python) float formatting. -/
def roundHalfEvenInt (a : Int) (d : Nat) : Int :=
  let f := Int.fdiv a d
  let r := a - f * d
  if 2 * r < (d : Int) then f
  else if (d : Int) < 2 * r then f + 1
  else if f % 2 = 0 then f else f + 1

/-- Round `q * 10^s` to the nearest integer, ties to even. -/
def scaledRound (q : ℚ) (s : Int) : Int :=
  if 0 ≤ s then roundHalfEvenInt (q.num * (10:Int) ^ s.toNat) q.den
  else roundHalfEvenInt q.num (q.den * 10 ^ (-s).toNat)

/-- Decide `10^s ≤ q` for a positive rational `q`, in integer arithmetic. -/
def pow10Le (s : Int) (q : ℚ) : Bool :=
  if 0 ≤ s then decide ((10:Int) ^ s.toNat * (q.den : Int) ≤ q.num)
  else decide ((q.den : Int) ≤ (10:Int) ^ (-s).toNat * q.num)

/-- Floor of `log₁₀ q` for a positive rational `q`: a candidate from the
numerator/denominator digit counts, corrected by exact comparisons. -/
def qlog10 (q : ℚ) : Int :=
  let c : Int := (natLog10 q.num.natAbs : Int) - (natLog10 q.den : Int)
  if pow10Le (c+1) q then c + 1 else if pow10Le c q then c else c - 1

/-- Printf `"%0.<p>f"` on a rational: fixed-point decimal with exactly `p`
fractional digits, round-half-even. -/
def fmtFixedL (p : Nat) (q : ℚ) : List Char :=
  let n := roundHalfEvenInt (q.num * (10:Int) ^ p) q.den
  let m := n.natAbs
  let sign : List Char := if n < 0 then ['-'] else []
  if p = 0 then sign ++ natToDec m
  else
    let fd := natToDec (m % 10 ^ p)
    sign ++ natToDec (m / 10 ^ p) ++ '.' :: (List.replicate (p - fd.length) '0' ++ fd)

/-- String wrapper for `fmtFixedL`. -/
def fmtFixed (p : Nat) (q : ℚ) : String := String.mk (fmtFixedL p q)

/-- Remove trailing `'0'` characters. -/
def stripZeros (l : List Char) : List Char :=
  (l.reverse.dropWhile (fun c => c = '0')).reverse

/-- Exponent digits for `%g` scientific notation: at least two digits. -/
def expDigits (e : Nat) : List Char :=
  let d := natToDec e
  List.replicate (2 - d.length) '0' ++ d

/-- Printf `"%0.<P>g"` on a rational: `P` significant digits; fixed notation
when the decimal exponent `e` satisfies `-4 ≤ e < P`, scientific notation
otherwise; trailing zeros (and a then-trailing point) removed. -/
def fmtGL (P : Nat) (q : ℚ) : List Char :=
  if q.num = 0 then ['0']
  else
    let sign : List Char := if q.num < 0 then ['-'] else []
    let aq : ℚ := mkRat (q.num.natAbs : Int) q.den
    let e0 := qlog10 aq
    let n0 := scaledRound aq ((P : Int) - 1 - e0)
    let ne : Int × Int := if n0 = (10:Int) ^ P then ((10:Int) ^ (P-1), e0 + 1) else (n0, e0)
    let ds := natToDec ne.1.natAbs
    let e := ne.2
    if -4 ≤ e ∧ e < (P : Int) then
      if 0 ≤ e then
        let fp := stripZeros (ds.drop (e.toNat + 1))
        sign ++ ds.take (e.toNat + 1) ++ (if fp.isEmpty then [] else '.' :: fp)
      else
        sign ++ '0' :: '.' :: stripZeros (List.replicate ((-e).toNat - 1) '0' ++ ds)
    else
      sign ++ ds.headD '0' ::
        (let t := stripZeros ds.tail
         (if t.isEmpty then [] else '.' :: t)
          ++ 'e' :: (if e < 0 then '-' else '+') :: expDigits e.natAbs)

/-- String wrapper for `fmtGL`. -/
def fmtG (P : Nat) (q : ℚ) : String := String.mk (fmtGL P q)

/-- Python `str.split(sep)` on character lists (auxiliary accumulator form). -/
def splitChAux (sep : Char) : List Char → List Char → List (List Char)
  | [], acc => [acc.reverse]
  | c :: cs, acc =>
      if c = sep then acc.reverse :: splitChAux sep cs []
      else splitChAux sep cs (c :: acc)

/-- Python `str.split(sep)` (single-character separator, empty pieces kept). -/
def splitCh (sep : Char) (s : List Char) : List (List Char) := splitChAux sep s []

/-- Python `dataString.split(',')` from `processData`. -/
def splitOnComma (s : List Char) : List (List Char) := splitCh ',' s

/-- Character test used by the float scanner. -/
def isDigitCh (c : Char) : Bool := decide ('0' ≤ c) && decide (c ≤ '9')

/-- Numeric value of a digit string (most significant first). -/
def digitsToNat (s : List Char) : Nat :=
  s.foldl (fun a c => 10 * a + (c.toNat - 48)) 0

/-- Unsigned part of Python `float(...)`: digits with an optional single
decimal point; at least one digit overall. -/
def parseUFloat (s : List Char) : Option ℚ :=
  let ip := s.takeWhile isDigitCh
  match s.dropWhile isDigitCh with
  | [] => if ip.isEmpty then none else some (mkRat (digitsToNat ip : Int) 1)
  | '.' :: fp =>
      if fp.all isDigitCh && !(ip.isEmpty && fp.isEmpty) then
        some (mkRat (digitsToNat ip * 10 ^ fp.length + digitsToNat fp : Int) (10 ^ fp.length))
      else none
  | _ => none

/-- Python `float(token)`: optional sign then `parseUFloat`; `none` models a
`ValueError`. -/
def parseFloat (s : List Char) : Option ℚ :=
  match s with
  | '-' :: rest => (parseUFloat rest).map (fun q => -q)
  | '+' :: rest => parseUFloat rest
  | _ => parseUFloat s

/-- Observable actions of the program: toggling the enabled/disabled status of the three buttons and the pyvisa traffic (`SM.write` / `SM.query`),
plus a marker for a completed `processData` run.  The `Bool` on a button
event is the argument Python passes to `setDisabled`. -/
inductive Event where
  | startSetDisabled (b : Bool)
  | stopSetDisabled (b : Bool)
  | saveSetDisabled (b : Bool)
  | smWrite (cmd : String)
  | smQuery (cmd : String)
  | processed
deriving DecidableEq, Repr

/-- The module-level mutable globals of `SI_app.py`, together with the
GUI-visible button state, the displayed result labels, and the cumulative
event log. -/
structure PState where
  N : Nat
  minV : ℚ
  maxV : ℚ
  area : ℚ
  flux : ℚ
  Imax : ℚ
  Imax_index : Nat
  IVmax : ℚ
  IVmax_index : Nat
  zero_index : Nat
  Vmax : ℚ
  fillFactor : ℚ
  efficiency : ℚ
  voltage : List ℚ
  current : List ℚ
  meterSelected : Bool
  startEnabled : Bool
  stopEnabled : Bool
  saveEnabled : Bool
  portEnabled : Bool
  saveText : String
  ffText : String
  efText : String
  events : List Event
deriving DecidableEq, Repr

/-- Append one event to the log. -/
def emit (st : PState) (e : Event) : PState :=
  { st with events := st.events ++ [e] }

/-- `startButton.setDisabled(b)`. -/
def setStartDisabled (st : PState) (b : Bool) : PState :=
  { emit st (Event.startSetDisabled b) with startEnabled := !b }

/-- `stopButton.setDisabled(b)`. -/
def setStopDisabled (st : PState) (b : Bool) : PState :=
  { emit st (Event.stopSetDisabled b) with stopEnabled := !b }

/-- `saveButton.setDisabled(b)`. -/
def setSaveDisabled (st : PState) (b : Bool) : PState :=
  { emit st (Event.saveSetDisabled b) with saveEnabled := !b }

/-- `SM.write(cmd)`. -/
def smWrite (st : PState) (cmd : String) : PState := emit st (Event.smWrite cmd)

/-- `SM.query(cmd)` (the returned string is supplied by the caller as the
sweep reading, an input of the model). -/
def smQuery (st : PState) (cmd : String) : PState := emit st (Event.smQuery cmd)

/-- Python `range(a, a + 2*n, 2)`: `n` indices starting at `a`, step 2. -/
def range2 : Nat → Nat → List Nat
  | _, 0 => []
  | a, n+1 => a :: range2 (a + 2) n

/-- `float(data[j])` for one index: `none` models both the `IndexError`
(index out of range) and the `ValueError` (malformed token). -/
def parseAt (data : List (List Char)) (j : Nat) : Option ℚ :=
  (data.get? j).bind parseFloat

/-- The list comprehension `[float(data[j]) for j in js]`: evaluated left to
right, failing (raising) at the first bad index. -/
def parseIdxs (data : List (List Char)) : List Nat → Option (List ℚ)
  | [] => some []
  | j :: js =>
      match parseAt data j with
      | none => none
      | some q => (parseIdxs data js).map (fun l => q :: l)

/-- `processData(dataString)`: split on commas, build the voltage array from
the even fields, then the current array from the odd fields, then re-enable
the save button.  The matplotlib redraw is GUI-only and not modelled.  An
uncaught Python exception is `Except.error st` carrying the state at the
moment of the raise: the `voltage` assignment completes before the `current`
comprehension runs, so a failure in the latter leaves the new `voltage` in
place.  The derived metrics are NOT touched: the analysis section of the
source is only the placeholder comment "set up analysis here, once Monica
figures out what should be analyzed and how!". -/
def processData (st : PState) (dataString : List Char) : Except PState PState :=
  let data := splitOnComma dataString
  match parseIdxs data (range2 0 st.N) with
  | none => Except.error st
  | some v =>
      let st1 := { st with voltage := v }
      match parseIdxs data (range2 1 st.N) with
      | none => Except.error st1
      | some c =>
          let st2 := { st1 with current := c }
          Except.ok (setSaveDisabled (emit st2 Event.processed) false)

/-- `start_clicked()`: disable start, enable stop, output on, one blocking
query, output off, process; re-enable start only if `processData` returned
normally (an exception skips the final `setDisabled(False)`). -/
def start_clicked (st : PState) (reading : List Char) : Except PState PState :=
  let st := setStartDisabled st true
  let st := setStopDisabled st false
  let st := smWrite st ("output on")
  let st := smQuery st ("read?")
  let st := smWrite st ("output off")
  match processData st reading with
  | Except.error st1 => Except.error st1
  | Except.ok st1 => Except.ok (setStartDisabled st1 false)

/-- `stop_clicked()`: disable stop, enable start, output off. -/
def stop_clicked (st : PState) : PState :=
  let st := setStopDisabled st true
  let st := setStartDisabled st false
  smWrite st ("output off")

/-- The text written by one `file.write` data row `"%0.5f\t%0.5g\n"`.
Reachable states always have `voltage.length = N = current.length`, so the
`getD` default is never consulted (Python would raise an `IndexError`). -/
def dataRow (st : PState) (j : Nat) : List Char :=
  fmtFixedL 5 (st.voltage.getD j 0) ++ '\t' :: fmtGL 5 (st.current.getD j 0) ++ ['\n']

/-- The full text written by `save_clicked()`: six `#`-prefixed header
lines, the `# Voltage\tCurrent` column-header line, then one data row per
`j in range(N)`. -/
def saveContentsL (st : PState) : List Char :=
  ("# Area = ").data ++ fmtFixedL 5 st.area ++ (" (units?)\n").data ++
  ("# Flux = ").data ++ fmtFixedL 5 st.flux ++ (" (units?)\n").data ++
  ("# Max Current = ").data ++ fmtFixedL 5 st.Imax ++ (" mA\n").data ++
  ("# Max Voltage = ").data ++ fmtFixedL 5 st.Vmax ++ (" V\n").data ++
  ("# Fill Factor = ").data ++ fmtFixedL 3 st.fillFactor ++ (" \n").data ++
  ("# Efficiency = ").data ++ fmtFixedL 3 st.efficiency ++ ("\n").data ++
  ("# Voltage\tCurrent\n").data ++
  List.flatten ((List.range st.N).map (fun j => dataRow st j))

/-- `save_clicked()`: returns the updated state (save button disabled, its
text changed) and the file content written. -/
def save_clicked (st : PState) : PState × List Char :=
  ({ setSaveDisabled st true with saveText := "Data Saved" }, saveContentsL st)

/-- `selectionChange()`: beep plus fixed sweep configuration, then enable
the controls.  `meterSelected = True` in the source binds a LOCAL variable
(no `global` declaration), so the global flag is not changed; the `if`
right below reads that local, hence the enables always run. -/
def selectionChange (st : PState) : PState :=
  let st := smWrite st ("syst:beep 440")
  let st := smWrite st ("route:term front")
  let st := smWrite st ("source:function:mode volt")
  let st := smWrite st ("source:volt:start " ++ fmtFixed 2 st.minV)
  let st := smWrite st ("source:volt:stop " ++ fmtFixed 2 st.maxV)
  let st := smWrite st ("source:volt:mode sweep")
  let st := smWrite st ("format:elements voltage, current")
  let st := smWrite st ("source:sweep:points " ++ Nat.repr st.N)
  let st := smWrite st ("trig:count " ++ Nat.repr st.N)
  setStartDisabled { st with portEnabled := true } false

/-- `areaSet()`: `area = float(areaEntry.text())`; a `ValueError` leaves the
state unchanged. -/
def areaSet (st : PState) (text : List Char) : Except PState PState :=
  match parseFloat text with
  | none => Except.error st
  | some a => Except.ok { st with area := a }

/-- `fluxSet()`. -/
def fluxSet (st : PState) (text : List Char) : Except PState PState :=
  match parseFloat text with
  | none => Except.error st
  | some f => Except.ok { st with flux := f }

/-- `minVset()`: parse the entry, then send the new sweep start voltage. -/
def minVset (st : PState) (text : List Char) : Except PState PState :=
  match parseFloat text with
  | none => Except.error st
  | some v => Except.ok (smWrite { st with minV := v } ("source:volt:start " ++ fmtFixed 2 v))

/-- `maxVset()`. -/
def maxVset (st : PState) (text : List Char) : Except PState PState :=
  match parseFloat text with
  | none => Except.error st
  | some v => Except.ok (smWrite { st with maxV := v } ("source:volt:stop " ++ fmtFixed 2 v))

/-- `portSet()`: route the measurement terminal to the chosen port. -/
def portSet (st : PState) (port : String) : PState :=
  smWrite st ("route:term " ++ port)

/-- `updateOutput()`: refresh the two result labels. -/
def updateOutput (st : PState) : PState :=
  { st with ffText := "Fill Factor: " ++ fmtFixed 2 st.fillFactor ++ "  ",
            efText := "Efficiency: " ++ fmtFixed 2 st.efficiency ++ " " }

/-- The state right after the main-program initialisation: `N = 100`,
`minV = 0.0`, `maxV = 2.0`, `area = 2.76`, `flux = 100.0`, zeroed metric
globals, `np.zeros(N)` arrays, start/stop/save buttons disabled, and one
initial `updateOutput()` call. -/
def initState : PState :=
  updateOutput
    { N := 100
      minV := 0
      maxV := 2
      area := mkRat 276 100
      flux := 100
      Imax := 0
      Imax_index := 0
      IVmax := 0
      IVmax_index := 0
      zero_index := 0
      Vmax := 0
      fillFactor := 0
      efficiency := 0
      voltage := List.replicate 100 0
      current := List.replicate 100 0
      meterSelected := false
      startEnabled := false
      stopEnabled := false
      saveEnabled := false
      portEnabled := false
      saveText := "Save Data"
      ffText := ""
      efText := ""
      events := [] }

/-- One user-triggered operation (a GUI callback firing), with the external
input it consumes, if any. -/
inductive Op where
  | select
  | start (reading : List Char)
  | stop
  | save
  | setArea (text : List Char)
  | setFlux (text : List Char)
  | setMinV (text : List Char)
  | setMaxV (text : List Char)
  | setPort (port : String)
  | updateOut

/-- Run one operation.  A Python exception propagates to the Qt event loop
(which swallows it and keeps running), so the post-state of a failing
handler is the state at the moment of the raise. -/
def runOp (st : PState) : Op → PState
  | Op.select => selectionChange st
  | Op.start r =>
      match start_clicked st r with
      | Except.ok s => s
      | Except.error s => s
  | Op.stop => stop_clicked st
  | Op.save => (save_clicked st).1
  | Op.setArea t =>
      match areaSet st t with
      | Except.ok s => s
      | Except.error s => s
  | Op.setFlux t =>
      match fluxSet st t with
      | Except.ok s => s
      | Except.error s => s
  | Op.setMinV t =>
      match minVset st t with
      | Except.ok s => s
      | Except.error s => s
  | Op.setMaxV t =>
      match maxVset st t with
      | Except.ok s => s
      | Except.error s => s
  | Op.setPort p => portSet st p
  | Op.updateOut => updateOutput st

/-- Run a whole interaction history. -/
def run (st : PState) (ops : List Op) : PState := ops.foldl runOp st

/-- Decidable equality of handler outcomes (used to evaluate the model on
concrete inputs). -/
instance {A B : Type} [DecidableEq A] [DecidableEq B] : DecidableEq (Except A B) := fun x y =>
  match x, y with
  | Except.ok a, Except.ok b =>
      if h : a = b then isTrue (by rw [h]) else isFalse (by simp [h])
  | Except.error a, Except.error b =>
      if h : a = b then isTrue (by rw [h]) else isFalse (by simp [h])
  | Except.ok _, Except.error _ => isFalse (by simp)
  | Except.error _, Except.ok _ => isFalse (by simp)

/-! ### Concrete fixtures

`exampleState` instantiates the worked example of the spec (a 3-point sweep);
`shortState` is a 2-point sweep used for the malformed-input analyses. -/

/-- A state configured for the 3-point example sweep of the spec. -/
def exampleState : PState :=
  { initState with N := 3, voltage := List.replicate 3 0, current := List.replicate 3 0 }

/-- The instrument reading of the worked example of the spec. -/
def exampleInput : List Char := ("0.0,0.010,0.5,0.006,1.0,0.000").toList

/-- The state after a handler, whether it returned or raised. -/
def pdResult (st : PState) (input : List Char) : PState :=
  match processData st input with
  | Except.ok s => s
  | Except.error s => s

/-- Result of processing the example reading. -/
def exampleOut : PState := pdResult exampleState exampleInput

/-- A state configured for a 2-point sweep (`2*N = 4` fields expected). -/
def shortState : PState :=
  { initState with N := 2, voltage := List.replicate 2 0, current := List.replicate 2 0 }

/-- Five numeric fields where `2*N = 4` are declared. -/
def extraInput : List Char := ("1.0,2.0,3.0,4.0,5.0").toList

/-- Result of processing the five-field reading in `shortState`. -/
def extraOut : PState := pdResult shortState extraInput

/-- Three numeric fields where `2*N = 4` are declared. -/
def shortInput : List Char := ("1.0,2.0,3.0").toList

/-- Result of processing the three-field reading in `shortState`. -/
def shortOut : PState := pdResult shortState shortInput

/-! ### Parsing lemmas -/

lemma range2_length (a n : Nat) : (range2 a n).length = n := by
  induction n generalizing a with
  | zero => rfl
  | succ n ih => simp [range2, ih]

lemma parseIdxs_range2_isSome (data : List (List Char)) :
    ∀ (n a : Nat), (∀ k, k < n → (parseAt data (a + 2 * k)).isSome) →
      ∃ l, parseIdxs data (range2 a n) = some l := by
  intro n
  induction n with
  | zero => exact fun a _ => ⟨[], rfl⟩
  | succ n ih =>
      intro a h
      have h0 : (parseAt data a).isSome := by
        have := h 0 (Nat.succ_pos n)
        simpa using this
      obtain ⟨q, hq⟩ := Option.isSome_iff_exists.mp h0
      have hrest : ∀ k, k < n → (parseAt data (a + 2 + 2 * k)).isSome := by
        intro k hk
        have := h (k + 1) (by omega)
        have e : a + 2 * (k + 1) = a + 2 + 2 * k := by omega
        rwa [e] at this
      obtain ⟨l, hl⟩ := ih (a + 2) hrest
      exact ⟨q :: l, by simp [range2, parseIdxs, hq, hl]⟩

lemma parseIdxs_range2_none (data : List (List Char)) :
    ∀ (n a : Nat), parseIdxs data (range2 a n) = none →
      ∃ k, k < n ∧ parseAt data (a + 2 * k) = none := by
  intro n
  induction n with
  | zero => intro a h; simp [range2, parseIdxs] at h
  | succ n ih =>
      intro a h
      simp only [range2, parseIdxs] at h
      cases hq : parseAt data a with
      | none => exact ⟨0, Nat.succ_pos n, by simpa using hq⟩
      | some q =>
          rw [hq] at h
          cases hl : parseIdxs data (range2 (a + 2) n) with
          | none =>
              obtain ⟨k, hk, hnone⟩ := ih (a + 2) hl
              exact ⟨k + 1, by omega, by rw [show a + 2 * (k + 1) = a + 2 + 2 * k by omega]; exact hnone⟩
          | some l => rw [hl] at h; simp at h

lemma parseIdxs_range2_spec (data : List (List Char)) :
    ∀ (n a : Nat) (l : List ℚ), parseIdxs data (range2 a n) = some l →
      l.length = n ∧ ∀ k, k < n → l.get? k = parseAt data (a + 2 * k) := by
  intro n
  induction n with
  | zero =>
      intro a l h
      simp [range2, parseIdxs] at h
      subst h
      exact ⟨rfl, fun k hk => absurd hk (Nat.not_lt_zero k)⟩
  | succ n ih =>
      intro a l h
      simp only [range2, parseIdxs] at h
      cases hq : parseAt data a with
      | none => rw [hq] at h; simp at h
      | some q =>
          rw [hq] at h
          cases hl : parseIdxs data (range2 (a + 2) n) with
          | none => rw [hl] at h; simp at h
          | some l' =>
              rw [hl] at h
              simp only [Option.map_some', Option.some.injEq] at h
              subst h
              obtain ⟨hlen, hget⟩ := ih (a + 2) l' hl
              refine ⟨by simp [hlen], fun k hk => ?_⟩
              cases k with
              | zero => simpa using hq.symm
              | succ k =>
                  have := hget k (by omega)
                  rw [show a + 2 * (k + 1) = a + 2 + 2 * k by omega]
                  simpa using this

/-! ### Shape of `processData` outcomes -/

lemma processData_ok_elim {st : PState} {input : List Char} {st' : PState}
    (h : processData st input = Except.ok st') :
    ∃ v c, parseIdxs (splitOnComma input) (range2 0 st.N) = some v ∧
      parseIdxs (splitOnComma input) (range2 1 st.N) = some c ∧
      st' = setSaveDisabled (emit { st with voltage := v, current := c } Event.processed) false := by
  simp only [processData] at h
  cases hv : parseIdxs (splitOnComma input) (range2 0 st.N) with
  | none => rw [hv] at h; simp at h
  | some v =>
      rw [hv] at h
      cases hc : parseIdxs (splitOnComma input) (range2 1 st.N) with
      | none => rw [hc] at h; simp at h
      | some c =>
          rw [hc] at h
          simp only [Except.ok.injEq] at h
          exact ⟨v, c, rfl, rfl, h.symm⟩

lemma processData_error_elim {st : PState} {input : List Char} {st' : PState}
    (h : processData st input = Except.error st') :
    (parseIdxs (splitOnComma input) (range2 0 st.N) = none ∧ st' = st) ∨
    (∃ v, parseIdxs (splitOnComma input) (range2 0 st.N) = some v ∧
      parseIdxs (splitOnComma input) (range2 1 st.N) = none ∧ st' = { st with voltage := v }) := by
  simp only [processData] at h
  cases hv : parseIdxs (splitOnComma input) (range2 0 st.N) with
  | none =>
      rw [hv] at h
      simp only [Except.error.injEq] at h
      exact Or.inl ⟨rfl, h.symm⟩
  | some v =>
      rw [hv] at h
      cases hc : parseIdxs (splitOnComma input) (range2 1 st.N) with
      | none =>
          rw [hc] at h
          simp only [Except.error.injEq] at h
          exact Or.inr ⟨v, rfl, rfl, h.symm⟩
      | some c => rw [hc] at h; simp at h

lemma processData_ok_intro {st : PState} {input : List Char} {v c : List ℚ}
    (hv : parseIdxs (splitOnComma input) (range2 0 st.N) = some v)
    (hc : parseIdxs (splitOnComma input) (range2 1 st.N) = some c) :
    processData st input =
      Except.ok (setSaveDisabled (emit { st with voltage := v, current := c } Event.processed) false) := by
  simp only [processData, hv, hc]

lemma processData_error_intro2 {st : PState} {input : List Char} {v : List ℚ}
    (hv : parseIdxs (splitOnComma input) (range2 0 st.N) = some v)
    (hc : parseIdxs (splitOnComma input) (range2 1 st.N) = none) :
    processData st input = Except.error { st with voltage := v } := by
  simp only [processData, hv, hc]

/-! ### Claim C1 -/

/-- Claim C1, counterexample.  On the example given in the spec (voltage
`[0.0, 0.5, 1.0]`, current `[0.010, 0.006, 0.000]`, area `2.76`,
flux `100.0`) `processData` parses the arrays but computes NO derived
metric: the resulting fill factor is `0`, not the claimed `0.3`, the
efficiency is `0`, not the claimed `0.0000828`, and the max current is `0`,
not the claimed `0.010`. -/
theorem processData_example_metrics_not_computed :
    processData exampleState exampleInput = Except.ok exampleOut ∧
    exampleOut.voltage = [0, mkRat 1 2, 1] ∧
    exampleOut.current = [mkRat 1 100, mkRat 3 500, 0] ∧
    exampleOut.area = mkRat 276 100 ∧ exampleOut.flux = 100 ∧
    exampleOut.fillFactor = 0 ∧ ¬ exampleOut.fillFactor = mkRat 3 10 ∧
    exampleOut.efficiency = 0 ∧ ¬ exampleOut.efficiency = mkRat 828 10000000 ∧
    exampleOut.Imax = 0 ∧ ¬ exampleOut.Imax = mkRat 1 100 := by decide

/-- Claim C1, amended.  After every sweep `processData` recomputes only the
parsed voltage and current sequences; it computes none of the derived
metrics (max current/index, max power-point/index, zero-crossing voltage,
fill factor, efficiency) — the analysis section of the source is an
unimplemented placeholder — so every metric field retains its previous
value, and on that example the displayed fill factor and efficiency
stay `0`. -/
theorem processData_updates_arrays_only (st : PState) (input : List Char) (st' : PState)
    (h : processData st input = Except.ok st') :
    parseIdxs (splitOnComma input) (range2 0 st.N) = some st'.voltage ∧
    parseIdxs (splitOnComma input) (range2 1 st.N) = some st'.current ∧
    st'.Imax = st.Imax ∧ st'.Imax_index = st.Imax_index ∧
    st'.IVmax = st.IVmax ∧ st'.IVmax_index = st.IVmax_index ∧
    st'.zero_index = st.zero_index ∧ st'.Vmax = st.Vmax ∧
    st'.fillFactor = st.fillFactor ∧ st'.efficiency = st.efficiency ∧
    st'.area = st.area ∧ st'.flux = st.flux := by
  obtain ⟨v, c, hv, hc, rfl⟩ := processData_ok_elim h
  refine ⟨?_, ?_, rfl, rfl, rfl, rfl, rfl, rfl, rfl, rfl, rfl, rfl⟩
  · simpa [setSaveDisabled, emit] using hv
  · simpa [setSaveDisabled, emit] using hc

/-- Claim C1, witness for the amended theorem at the example of the spec. -/
theorem processData_updates_arrays_only_witness :
    processData exampleState exampleInput = Except.ok exampleOut ∧
    exampleOut.fillFactor = exampleState.fillFactor ∧
    exampleOut.efficiency = exampleState.efficiency := by
  have h : processData exampleState exampleInput = Except.ok exampleOut := by decide
  obtain ⟨-, -, -, -, -, -, -, -, hff, heff, -, -⟩ :=
    processData_updates_arrays_only exampleState exampleInput exampleOut h
  exact ⟨h, hff, heff⟩

/-! ### Claim C3 -/

/-- Claim C3, counterexample.  An input whose comma-separated token count
(five) does not match the declared `2*N = 4` does NOT fail: the two extra
reads only need indices `0..3`, so parsing succeeds and simply ignores the
fifth field. -/
theorem processData_extra_tokens_ok :
    (splitOnComma extraInput).length = 5 ∧ 2 * shortState.N = 4 ∧
    processData shortState extraInput = Except.ok extraOut := by decide

/-- Claim C3, amended.  Parsing raises exactly when one of the `2*N`
scanned fields (even indices `0,2,…,2N-2`, then odd indices `1,3,…,2N-1`)
is missing or non-numeric; a token count larger than `2*N` is accepted (the
excess is ignored), and `N = 0` accepts anything.  Moreover an error never
builds a partial `current` array, but it can leave a fully rebuilt
length-`N` `voltage` array behind (when the failure happens while scanning
the odd fields). -/
theorem processData_error_characterization (st : PState) (input : List Char) :
    ((∃ st', processData st input = Except.error st') ↔
      ∃ j, j < 2 * st.N ∧ parseAt (splitOnComma input) j = none) ∧
    (∀ st', processData st input = Except.error st' →
      st'.current = st.current ∧
      (st'.voltage = st.voltage ∨ st'.voltage.length = st.N)) := by
  constructor
  · constructor
    · rintro ⟨st', h⟩
      rcases processData_error_elim h with ⟨hnone, -⟩ | ⟨v, -, hnone, -⟩
      · obtain ⟨k, hk, hfail⟩ := parseIdxs_range2_none _ _ _ hnone
        exact ⟨2 * k, by omega, by simpa using hfail⟩
      · obtain ⟨k, hk, hfail⟩ := parseIdxs_range2_none _ _ _ hnone
        exact ⟨1 + 2 * k, by omega, hfail⟩
    · rintro ⟨j, hj, hfail⟩
      cases hv : parseIdxs (splitOnComma input) (range2 0 st.N) with
      | none => exact ⟨st, by simp only [processData, hv]⟩
      | some v =>
          cases hc : parseIdxs (splitOnComma input) (range2 1 st.N) with
          | none => exact ⟨{ st with voltage := v }, processData_error_intro2 hv hc⟩
          | some c =>
              exfalso
              obtain ⟨hvlen, hvk⟩ := parseIdxs_range2_spec _ _ _ _ hv
              obtain ⟨hclen, hck⟩ := parseIdxs_range2_spec _ _ _ _ hc
              rcases Nat.even_or_odd j with ⟨k, hk⟩ | ⟨k, hk⟩
              · have := hvk k (by omega)
                rw [show 0 + 2 * k = j by omega, hfail] at this
                simp only [List.get?_eq_none] at this
                omega
              · have := hck k (by omega)
                rw [show 1 + 2 * k = j by omega, hfail] at this
                simp only [List.get?_eq_none] at this
                omega
  · intro st' h
    rcases processData_error_elim h with ⟨-, rfl⟩ | ⟨v, hv, -, rfl⟩
    · exact ⟨rfl, Or.inl rfl⟩
    · obtain ⟨hlen, -⟩ := parseIdxs_range2_spec _ _ _ _ hv
      exact ⟨rfl, Or.inr (by simpa [range2_length] using hlen)⟩

/-- Claim C3, witness for the amended theorem: a three-field input in a
`2*N = 4` state raises, leaving `current` untouched while `voltage` was
already replaced. -/
theorem processData_error_characterization_witness :
    (∃ st', processData shortState shortInput = Except.error st') ∧
    shortOut.current = shortState.current ∧
    (shortOut.voltage = shortState.voltage ∨ shortOut.voltage.length = shortState.N) := by
  have h : processData shortState shortInput = Except.error shortOut := by decide
  have H := processData_error_characterization shortState shortInput
  exact ⟨H.1.mpr ⟨3, by decide, by decide⟩, (H.2 shortOut h).1, (H.2 shortOut h).2⟩

/-! ### Claim C4 -/

/-- Claim C4, counterexample.  Processing `"1.0,2.0,3.0"` in a state
declaring `2*N = 4` fields raises while building the `current` array, AFTER
the `voltage` array has already been replaced: the post-raise state has a
new `voltage` (`[1, 3]`) but the old `current`, so the update is not
atomic. -/
theorem processData_partial_update :
    processData shortState shortInput = Except.error shortOut ∧
    shortOut.voltage = [1, 3] ∧ ¬ shortOut.voltage = shortState.voltage ∧
    shortOut.current = shortState.current := by decide

/-- Claim C4, amended.  On success both sequences are replaced wholesale by
the freshly parsed length-`N` arrays; on error `current` is always left
exactly as it was, but `voltage` is either untouched (failure while
scanning the even fields) or already replaced by the new length-`N` array
(failure while scanning the odd fields) — full atomicity does not hold. -/
theorem processData_update_shape (st : PState) (input : List Char) :
    (∀ st', processData st input = Except.ok st' →
      st'.voltage.length = st.N ∧ st'.current.length = st.N ∧
      parseIdxs (splitOnComma input) (range2 0 st.N) = some st'.voltage ∧
      parseIdxs (splitOnComma input) (range2 1 st.N) = some st'.current) ∧
    (∀ st', processData st input = Except.error st' →
      st'.current = st.current ∧
      (st'.voltage = st.voltage ∨
        (st'.voltage.length = st.N ∧
          parseIdxs (splitOnComma input) (range2 0 st.N) = some st'.voltage))) := by
  constructor
  · intro st' h
    obtain ⟨v, c, hv, hc, rfl⟩ := processData_ok_elim h
    obtain ⟨hvlen, -⟩ := parseIdxs_range2_spec _ _ _ _ hv
    obtain ⟨hclen, -⟩ := parseIdxs_range2_spec _ _ _ _ hc
    exact ⟨by simpa [setSaveDisabled, emit] using hvlen,
           by simpa [setSaveDisabled, emit] using hclen,
           by simpa [setSaveDisabled, emit] using hv,
           by simpa [setSaveDisabled, emit] using hc⟩
  · intro st' h
    rcases processData_error_elim h with ⟨-, rfl⟩ | ⟨v, hv, -, rfl⟩
    · exact ⟨rfl, Or.inl rfl⟩
    · obtain ⟨hlen, -⟩ := parseIdxs_range2_spec _ _ _ _ hv
      exact ⟨rfl, Or.inr ⟨by simpa [range2_length] using hlen, hv⟩⟩

/-- Claim C4, witness for the amended theorem at a successful five-field
parse (`2*N = 4`). -/
theorem processData_update_shape_witness :
    processData shortState extraInput = Except.ok extraOut ∧
    extraOut.voltage.length = shortState.N ∧ extraOut.current.length = shortState.N := by
  have h : processData shortState extraInput = Except.ok extraOut := by decide
  have H := (processData_update_shape shortState extraInput).1 extraOut h
  exact ⟨h, H.1, H.2.1⟩

/-! ### Claim C2 -/

/-- Claim C2.  If every one of the first `2*N` comma-separated fields
parses as a float, `processData` succeeds and stores two length-`N`
sequences with `voltage[j]` the value of field `2j` and `current[j]` the
value of field `2j+1`.  (Values are exact rationals here; the Python
program stores them as IEEE doubles.) -/
theorem processData_parse_interleaved (st : PState) (input : List Char)
    (h : ∀ j, j < 2 * st.N → (parseAt (splitOnComma input) j).isSome) :
    ∃ st', processData st input = Except.ok st' ∧
      st'.voltage.length = st.N ∧ st'.current.length = st.N ∧
      ∀ j, j < st.N →
        st'.voltage.get? j = parseAt (splitOnComma input) (2 * j) ∧
        st'.current.get? j = parseAt (splitOnComma input) (2 * j + 1) := by
  obtain ⟨v, hv⟩ := parseIdxs_range2_isSome (splitOnComma input) st.N 0
    (fun k hk => h (0 + 2 * k) (by omega))
  obtain ⟨c, hc⟩ := parseIdxs_range2_isSome (splitOnComma input) st.N 1
    (fun k hk => h (1 + 2 * k) (by omega))
  obtain ⟨hvlen, hvk⟩ := parseIdxs_range2_spec _ _ _ _ hv
  obtain ⟨hclen, hck⟩ := parseIdxs_range2_spec _ _ _ _ hc
  refine ⟨_, processData_ok_intro hv hc, ?_, ?_, ?_⟩
  · simpa [setSaveDisabled, emit] using hvlen
  · simpa [setSaveDisabled, emit] using hclen
  · intro j hj
    constructor
    · have := hvk j hj
      rw [show 0 + 2 * j = 2 * j by omega] at this
      simpa [setSaveDisabled, emit] using this
    · have := hck j hj
      rw [show 1 + 2 * j = 2 * j + 1 by omega] at this
      simpa [setSaveDisabled, emit] using this

/-- Claim C2, witness at a concrete four-field input with `N = 2`. -/
theorem processData_parse_interleaved_witness :
    (∀ j, j < 2 * shortState.N → (parseAt (splitOnComma ("1.0,2.0,3.0,4.0").toList) j).isSome) ∧
    (∃ st', processData shortState ("1.0,2.0,3.0,4.0").toList = Except.ok st' ∧
      st'.voltage.length = shortState.N ∧ st'.current.length = shortState.N ∧
      ∀ j, j < shortState.N →
        st'.voltage.get? j = parseAt (splitOnComma ("1.0,2.0,3.0,4.0").toList) (2 * j) ∧
        st'.current.get? j = parseAt (splitOnComma ("1.0,2.0,3.0,4.0").toList) (2 * j + 1)) :=
  ⟨by decide, processData_parse_interleaved shortState (("1.0,2.0,3.0,4.0").toList) (by decide)⟩

/-! ### Claim C8 -/

/-- Interleave two sequences: `v0, c0, v1, c1, …`. -/
def interleave : List ℚ → List ℚ → List ℚ
  | [], _ => []
  | x :: xs, [] => x :: interleave xs []
  | x :: xs, y :: ys => x :: y :: interleave xs ys

lemma parseIdxs_shift (data : List (List Char)) :
    ∀ (n a : Nat), parseIdxs data (range2 (a + 2) n) = parseIdxs (data.drop 2) (range2 a n) := by
  intro n
  induction n with
  | zero => intro a; rfl
  | succ n ih =>
      intro a
      have hhead : parseAt data (a + 2) = parseAt (data.drop 2) a := by
        simp [parseAt, List.get?_drop]
        rw [show 2 + a = a + 2 by omega]
      simp only [range2, parseIdxs, hhead, ih (a + 2)]

lemma takeMapM_interleave :
    ∀ (n : Nat) (data : List (List Char)) (v c : List ℚ),
      parseIdxs data (range2 0 n) = some v →
      parseIdxs data (range2 1 n) = some c →
      (data.take (2 * n)).mapM parseFloat = some (interleave v c) := by
  intro n
  induction n with
  | zero =>
      intro data v c hv hc
      simp only [range2, parseIdxs, Option.some.injEq] at hv hc
      subst hv; subst hc
      rfl
  | succ n ih =>
      intro data v c hv hc
      simp only [range2, parseIdxs] at hv hc
      cases hq0 : parseAt data 0 with
      | none => rw [hq0] at hv; simp at hv
      | some q0 =>
      rw [hq0] at hv
      cases hv' : parseIdxs data (range2 2 n) with
      | none => rw [hv'] at hv; simp at hv
      | some v' =>
      rw [hv'] at hv
      simp only [Option.map_some', Option.some.injEq] at hv
      cases hq1 : parseAt data 1 with
      | none => rw [hq1] at hc; simp at hc
      | some q1 =>
      rw [hq1] at hc
      cases hc' : parseIdxs data (range2 3 n) with
      | none => rw [hc'] at hc; simp at hc
      | some c' =>
      rw [hc'] at hc
      simp only [Option.map_some', Option.some.injEq] at hc
      subst hv; subst hc
      obtain ⟨t0, rest1, rfl⟩ : ∃ t0 rest1, data = t0 :: rest1 := by
        cases data with
        | nil => simp [parseAt] at hq0
        | cons t0 rest1 => exact ⟨t0, rest1, rfl⟩
      obtain ⟨t1, rest, rfl⟩ : ∃ t1 rest, rest1 = t1 :: rest := by
        cases rest1 with
        | nil => simp [parseAt] at hq1
        | cons t1 rest => exact ⟨t1, rest, rfl⟩
      have hf0 : parseFloat t0 = some q0 := by simpa [parseAt] using hq0
      have hf1 : parseFloat t1 = some q1 := by simpa [parseAt] using hq1
      have hv2 : parseIdxs rest (range2 0 n) = some v' := by
        have := parseIdxs_shift (t0 :: t1 :: rest) n 0
        simpa using this ▸ hv'
      have hc2 : parseIdxs rest (range2 1 n) = some c' := by
        have := parseIdxs_shift (t0 :: t1 :: rest) n 1
        simpa using this ▸ hc'
      have hrec := ih rest v' c' hv2 hc2
      rw [show 2 * (n + 1) = 2 * n + 1 + 1 by omega]
      simp only [List.take_succ_cons, List.mapM_cons, hf0, hf1, hrec, interleave]
      rfl

/-- Claim C8.  A successful parse round-trips: re-interleaving the stored
`voltage` and `current` sequences recovers exactly the parsed values of the
first `2*N` comma-separated tokens of the input (token equivalence up to
numeric formatting is equality of the parsed values). -/
theorem processData_round_trip (st : PState) (input : List Char) (st' : PState)
    (h : processData st input = Except.ok st') :
    ((splitOnComma input).take (2 * st.N)).mapM parseFloat
      = some (interleave st'.voltage st'.current) ∧
    st'.voltage.length = st.N ∧ st'.current.length = st.N := by
  obtain ⟨v, c, hv, hc, rfl⟩ := processData_ok_elim h
  obtain ⟨hvlen, -⟩ := parseIdxs_range2_spec _ _ _ _ hv
  obtain ⟨hclen, -⟩ := parseIdxs_range2_spec _ _ _ _ hc
  refine ⟨?_, by simpa [setSaveDisabled, emit] using hvlen,
          by simpa [setSaveDisabled, emit] using hclen⟩
  have := takeMapM_interleave st.N (splitOnComma input) v c hv hc
  simpa [setSaveDisabled, emit] using this

/-- Claim C8, witness at the example input of the spec. -/
theorem processData_round_trip_witness :
    processData exampleState exampleInput = Except.ok exampleOut ∧
    ((splitOnComma exampleInput).take (2 * exampleState.N)).mapM parseFloat
      = some (interleave exampleOut.voltage exampleOut.current) := by
  have h : processData exampleState exampleInput = Except.ok exampleOut := by decide
  exact ⟨h, (processData_round_trip exampleState exampleInput exampleOut h).1⟩

/-! ### Event-trace projections -/

/-- The instrument traffic in an event log, in order (both writes and
queries). -/
def smCmds (es : List Event) : List String :=
  es.filterMap (fun e =>
    match e with
    | Event.smWrite c => some c
    | Event.smQuery c => some c
    | _ => none)

/-- Projection of an event log onto the actions claim C7 enumerates: the
start-control toggles, the instrument traffic, and the data processing
(dropping the stop/save button toggles). -/
def claimTrace (es : List Event) : List Event :=
  es.filter (fun e =>
    match e with
    | Event.stopSetDisabled _ => false
    | Event.saveSetDisabled _ => false
    | _ => true)

lemma start_clicked_ok_elim {st : PState} {reading : List Char} {st' : PState}
    (h : start_clicked st reading = Except.ok st') :
    ∃ st1, processData
        (smWrite (smQuery (smWrite (setStopDisabled (setStartDisabled st true) false)
          ("output on")) ("read?")) ("output off")) reading = Except.ok st1 ∧
      st' = setStartDisabled st1 false := by
  simp only [start_clicked] at h
  split at h
  · exact absurd h (by simp)
  · rename_i st1 heq
    exact ⟨st1, heq, (Except.ok.inj h).symm⟩

lemma start_clicked_error_elim {st : PState} {reading : List Char} {st' : PState}
    (h : start_clicked st reading = Except.error st') :
    processData
      (smWrite (smQuery (smWrite (setStopDisabled (setStartDisabled st true) false)
        ("output on")) ("read?")) ("output off")) reading = Except.error st' := by
  simp only [start_clicked] at h
  split at h
  · rename_i st1 heq
    rw [Except.error.inj h] at heq
    exact heq
  · exact absurd h (by simp)

/-! ### Claim C6 -/

/-- Claim C6.  On instrument selection the program sends exactly, and in
this order: beep, measurement terminal, source function voltage, sweep
start voltage, sweep stop voltage, sweep mode, returned element order,
sweep point count `N`, trigger count `N` — and no other instrument
commands. -/
theorem selectionChange_command_sequence (st : PState) :
    smCmds (selectionChange st).events =
      smCmds st.events ++
        [("syst:beep 440"), ("route:term front"), ("source:function:mode volt"),
         "source:volt:start " ++ fmtFixed 2 st.minV,
         "source:volt:stop " ++ fmtFixed 2 st.maxV,
         ("source:volt:mode sweep"), ("format:elements voltage, current"),
         "source:sweep:points " ++ Nat.repr st.N,
         "trig:count " ++ Nat.repr st.N] := by
  simp [selectionChange, smWrite, emit, setStartDisabled, smCmds, List.filterMap_append]

/-! ### Claim C7 -/

/-- Claim C7.  A successful sweep appends exactly this event sequence:
disable start, enable stop, output on, the one blocking query, output off,
process the data, re-enable save, re-enable start; its projection onto the
claim alphabet (start control, instrument, processing) is exactly the
claimed six-step sequence; no event between the initial disable and the
final re-enable touches the start control (so sweeps cannot overlap); and
the start control ends re-enabled. -/
theorem start_clicked_event_sequence (st : PState) (reading : List Char) (st' : PState)
    (h : start_clicked st reading = Except.ok st') :
    st'.events = st.events ++
      [Event.startSetDisabled true, Event.stopSetDisabled false,
       Event.smWrite ("output on"), Event.smQuery ("read?"), Event.smWrite ("output off"),
       Event.processed, Event.saveSetDisabled false, Event.startSetDisabled false] ∧
    claimTrace st'.events = claimTrace st.events ++
      [Event.startSetDisabled true, Event.smWrite ("output on"), Event.smQuery ("read?"),
       Event.smWrite ("output off"), Event.processed, Event.startSetDisabled false] ∧
    (∀ b, Event.startSetDisabled b ∉
      [Event.stopSetDisabled false, Event.smWrite ("output on"), Event.smQuery ("read?"),
       Event.smWrite ("output off"), Event.processed, Event.saveSetDisabled false]) ∧
    st'.startEnabled = true := by
  obtain ⟨st1, hp, rfl⟩ := start_clicked_ok_elim h
  obtain ⟨v, c, hv, hc, rfl⟩ := processData_ok_elim hp
  refine ⟨?_, ?_, by decide, rfl⟩
  · simp [setStartDisabled, setStopDisabled, setSaveDisabled, smWrite, smQuery, emit]
  · simp [setStartDisabled, setStopDisabled, setSaveDisabled, smWrite, smQuery, emit,
      claimTrace, List.filter_append]

/-- Claim C7, witness at the example sweep of the spec. -/
theorem start_clicked_event_sequence_witness :
    start_clicked exampleState exampleInput =
      Except.ok (runOp exampleState (Op.start exampleInput)) ∧
    (runOp exampleState (Op.start exampleInput)).events =
      exampleState.events ++
        [Event.startSetDisabled true, Event.stopSetDisabled false,
         Event.smWrite ("output on"), Event.smQuery ("read?"), Event.smWrite ("output off"),
         Event.processed, Event.saveSetDisabled false, Event.startSetDisabled false] := by
  have h : start_clicked exampleState exampleInput =
      Except.ok (runOp exampleState (Op.start exampleInput)) := by decide
  exact ⟨h, (start_clicked_event_sequence exampleState exampleInput _ h).1⟩

/-! ### Claim C10 -/

/-- Claim C10.  The stop handler sends exactly one further instrument
command (`output off`), toggles the start/stop controls, and leaves the
stored sweep arrays, the sweep parameters and every derived metric
untouched. -/
theorem stop_clicked_frame (st : PState) :
    smCmds (stop_clicked st).events = smCmds st.events ++ [("output off")] ∧
    (stop_clicked st).voltage = st.voltage ∧ (stop_clicked st).current = st.current ∧
    (stop_clicked st).minV = st.minV ∧ (stop_clicked st).maxV = st.maxV ∧
    (stop_clicked st).N = st.N ∧ (stop_clicked st).area = st.area ∧
    (stop_clicked st).flux = st.flux ∧
    (stop_clicked st).Imax = st.Imax ∧ (stop_clicked st).Imax_index = st.Imax_index ∧
    (stop_clicked st).IVmax = st.IVmax ∧ (stop_clicked st).IVmax_index = st.IVmax_index ∧
    (stop_clicked st).zero_index = st.zero_index ∧ (stop_clicked st).Vmax = st.Vmax ∧
    (stop_clicked st).fillFactor = st.fillFactor ∧
    (stop_clicked st).efficiency = st.efficiency ∧
    (stop_clicked st).startEnabled = true ∧ (stop_clicked st).stopEnabled = false := by
  simp [stop_clicked, setStartDisabled, setStopDisabled, smWrite, emit, smCmds,
    List.filterMap_append]

/-! ### Claim C5 -/

/-- No character of `l` equals `sep`. -/
abbrev noSep (sep : Char) (l : List Char) : Prop := ∀ c ∈ l, c ≠ sep

lemma noSep_append {sep : Char} {a b : List Char}
    (ha : noSep sep a) (hb : noSep sep b) : noSep sep (a ++ b) := by
  intro c hc
  rcases List.mem_append.mp hc with hc | hc
  · exact ha c hc
  · exact hb c hc

lemma digitChar10_ne_nl (n : Nat) : digitChar10 n ≠ '\n' := by
  have h : n % 10 < 10 := Nat.mod_lt _ (by norm_num)
  unfold digitChar10
  set r := n % 10 with hr
  interval_cases r <;> decide

lemma natToDecAux_mem {P : Char → Prop} (hP : ∀ k, P (digitChar10 k)) :
    ∀ (fuel n : Nat) (acc : List Char), (∀ c ∈ acc, P c) →
      ∀ c ∈ natToDecAux fuel n acc, P c := by
  intro fuel
  induction fuel with
  | zero => exact fun n acc hacc c hc => hacc c hc
  | succ fuel ih =>
      intro n acc hacc c hc
      simp only [natToDecAux] at hc
      by_cases h : n < 10
      · rw [if_pos h] at hc
        rcases List.mem_cons.mp hc with rfl | hc
        · exact hP n
        · exact hacc c hc
      · rw [if_neg h] at hc
        refine ih (n / 10) (digitChar10 (n % 10) :: acc) ?_ c hc
        intro d hd
        rcases List.mem_cons.mp hd with rfl | hd
        · exact hP (n % 10)
        · exact hacc d hd

lemma natToDec_ne_nl (n : Nat) : noSep '\n' (natToDec n) :=
  natToDecAux_mem (fun k => digitChar10_ne_nl k) (n + 1) n [] (by simp)

lemma stripZeros_subset (l : List Char) : ∀ c ∈ stripZeros l, c ∈ l := by
  intro c hc
  unfold stripZeros at hc
  rw [List.mem_reverse] at hc
  have := List.Sublist.subset (List.dropWhile_sublist (fun c => c = '0')) hc
  exact List.mem_reverse.mp this

lemma mem_of_mem_tail {α : Type} {l : List α} {x : α} (h : x ∈ l.tail) : x ∈ l := by
  cases l with
  | nil => simpa using h
  | cons a l => exact List.mem_cons_of_mem a h

lemma fmtFixedL_ne_nl (p : Nat) (q : ℚ) : noSep '\n' (fmtFixedL p q) := by
  intro c hc
  unfold fmtFixedL at hc
  by_cases hp : p = 0
  · rw [if_pos hp] at hc
    rcases List.mem_append.mp hc with hc | hc
    · split at hc
      · rcases List.mem_cons.mp hc with rfl | hc
        · decide
        · simp at hc
      · simp at hc
    · exact natToDec_ne_nl _ c hc
  · rw [if_neg hp] at hc
    rcases List.mem_append.mp hc with hc | hc
    · rcases List.mem_append.mp hc with hc | hc
      · split at hc
        · rcases List.mem_cons.mp hc with rfl | hc
          · decide
          · simp at hc
        · simp at hc
      · exact natToDec_ne_nl _ c hc
    · rcases List.mem_cons.mp hc with rfl | hc
      · decide
      · rcases List.mem_append.mp hc with hc | hc
        · rw [List.eq_of_mem_replicate hc]; decide
        · exact natToDec_ne_nl _ c hc

lemma natToDec_headD_ne_nl (n : Nat) : (natToDec n).headD '0' ≠ '\n' := by
  cases h : natToDec n with
  | nil => decide
  | cons a l =>
      have := natToDec_ne_nl n a (by rw [h]; exact List.mem_cons_self a l)
      simpa using this

lemma expDigits_ne_nl (e : Nat) : noSep '\n' (expDigits e) := by
  intro c hc
  unfold expDigits at hc
  rcases List.mem_append.mp hc with hc | hc
  · rw [List.eq_of_mem_replicate hc]; decide
  · exact natToDec_ne_nl _ c hc

lemma fmtG_body_ne_nl (sign : List Char) (hsign : noSep '\n' sign) (n e : Int) (P : Nat) :
    noSep '\n'
      (if -4 ≤ e ∧ e < (P : Int) then
        if 0 ≤ e then
          sign ++ (natToDec n.natAbs).take (e.toNat + 1) ++
            (if (stripZeros ((natToDec n.natAbs).drop (e.toNat + 1))).isEmpty then []
             else '.' :: stripZeros ((natToDec n.natAbs).drop (e.toNat + 1)))
        else
          sign ++ '0' :: '.' ::
            stripZeros (List.replicate ((-e).toNat - 1) '0' ++ natToDec n.natAbs)
      else
        sign ++ (natToDec n.natAbs).headD '0' ::
          ((if (stripZeros (natToDec n.natAbs).tail).isEmpty then []
            else '.' :: stripZeros (natToDec n.natAbs).tail) ++
           'e' :: (if e < 0 then '-' else '+') :: expDigits e.natAbs)) := by
  intro c hc
  split at hc
  · split at hc
    · rcases List.mem_append.mp hc with hc | hc
      · rcases List.mem_append.mp hc with hc | hc
        · exact hsign c hc
        · exact natToDec_ne_nl _ c (List.take_subset _ _ hc)
      · split at hc
        · simp at hc
        · rcases List.mem_cons.mp hc with rfl | hc
          · decide
          · exact natToDec_ne_nl _ c (List.drop_subset _ _ (stripZeros_subset _ c hc))
    · rcases List.mem_append.mp hc with hc | hc
      · exact hsign c hc
      · rcases List.mem_cons.mp hc with rfl | hc
        · decide
        · rcases List.mem_cons.mp hc with rfl | hc
          · decide
          · rcases List.mem_append.mp (stripZeros_subset _ c hc) with hc | hc
            · rw [List.eq_of_mem_replicate hc]; decide
            · exact natToDec_ne_nl _ c hc
  · rcases List.mem_append.mp hc with hc | hc
    · exact hsign c hc
    · rcases List.mem_cons.mp hc with rfl | hc
      · exact natToDec_headD_ne_nl _
      · rcases List.mem_append.mp hc with hc | hc
        · split at hc
          · simp at hc
          · rcases List.mem_cons.mp hc with rfl | hc
            · decide
            · exact natToDec_ne_nl _ c (mem_of_mem_tail (stripZeros_subset _ c hc))
        · rcases List.mem_cons.mp hc with rfl | hc
          · decide
          · rcases List.mem_cons.mp hc with rfl | hc
            · split
              · decide
              · decide
            · exact expDigits_ne_nl _ c hc

lemma fmtGL_ne_nl (P : Nat) (q : ℚ) : noSep '\n' (fmtGL P q) := by
  intro c hc
  unfold fmtGL at hc
  split at hc
  · rcases List.mem_cons.mp hc with rfl | hc
    · decide
    · simp at hc
  · dsimp only at hc
    have hsign : noSep '\n' (if q.num < 0 then ['-'] else []) := by
      split
      · intro d hd
        rcases List.mem_cons.mp hd with rfl | hd
        · decide
        · simp at hd
      · intro d hd; simp at hd
    split at hc
    · exact fmtG_body_ne_nl _ hsign _ _ P c hc
    · exact fmtG_body_ne_nl _ hsign _ _ P c hc

lemma splitChAux_no_sep (sep : Char) :
    ∀ (a acc : List Char), noSep sep a → splitChAux sep a acc = [acc.reverse ++ a] := by
  intro a
  induction a with
  | nil => intro acc _; simp [splitChAux]
  | cons x xs ih =>
      intro acc h
      have hx : x ≠ sep := h x (List.mem_cons_self x xs)
      simp only [splitChAux, if_neg hx]
      rw [ih (x :: acc) (fun c hc => h c (List.mem_cons_of_mem x hc))]
      simp

lemma splitChAux_append (sep : Char) :
    ∀ (a b acc : List Char), noSep sep a →
      splitChAux sep (a ++ sep :: b) acc = (acc.reverse ++ a) :: splitChAux sep b [] := by
  intro a
  induction a with
  | nil =>
      intro b acc _
      simp [splitChAux]
  | cons x xs ih =>
      intro b acc h
      have hx : x ≠ sep := h x (List.mem_cons_self x xs)
      simp only [List.cons_append, splitChAux, if_neg hx, List.append_eq]
      rw [ih b (x :: acc) (fun c hc => h c (List.mem_cons_of_mem x hc))]
      simp

lemma splitCh_append (sep : Char) (a b : List Char) (h : noSep sep a) :
    splitCh sep (a ++ sep :: b) = a :: splitCh sep b := by
  unfold splitCh
  rw [splitChAux_append sep a b [] h]
  simp

lemma splitCh_peelA (sep : Char) (x y z w b : List Char)
    (hw : w = z ++ [sep]) (hx : noSep sep x) (hy : noSep sep y) (hz : noSep sep z) :
    splitCh sep (x ++ (y ++ (w ++ b))) = (x ++ (y ++ z)) :: splitCh sep b := by
  subst hw
  have e : x ++ (y ++ ((z ++ [sep]) ++ b)) = (x ++ y ++ z) ++ sep :: b := by simp
  rw [e, splitCh_append sep (x ++ y ++ z) b (noSep_append (noSep_append hx hy) hz)]
  simp

lemma splitCh_peelB (sep : Char) (x y w1 z2 w2 b : List Char)
    (hw1 : w1 = [sep]) (hw2 : w2 = z2 ++ [sep])
    (hx : noSep sep x) (hy : noSep sep y) (hz : noSep sep z2) :
    splitCh sep (x ++ (y ++ (w1 ++ (w2 ++ b)))) = (x ++ y) :: z2 :: splitCh sep b := by
  subst hw1
  subst hw2
  have e : x ++ (y ++ ([sep] ++ ((z2 ++ [sep]) ++ b))) =
      (x ++ y) ++ sep :: (z2 ++ sep :: b) := by simp
  rw [e, splitCh_append sep _ _ (noSep_append hx hy), splitCh_append sep _ _ hz]

lemma splitCh_flatten (sep : Char) (f g : Nat → List Char) :
    ∀ l : List Nat, (∀ x ∈ l, g x = f x ++ [sep]) → (∀ x ∈ l, noSep sep (f x)) →
      splitCh sep (List.flatten (l.map g)) = l.map f ++ [[]] := by
  intro l
  induction l with
  | nil => intro _ _; rfl
  | cons x xs ih =>
      intro hg hf
      simp only [List.map_cons, List.flatten_cons]
      rw [hg x (List.mem_cons_self x xs)]
      have e : (f x ++ [sep]) ++ List.flatten (xs.map g) =
          f x ++ sep :: List.flatten (xs.map g) := by simp
      rw [e, splitCh_append sep _ _ (hf x (List.mem_cons_self x xs)),
        ih (fun y hy => hg y (List.mem_cons_of_mem x hy))
           (fun y hy => hf y (List.mem_cons_of_mem x hy))]
      rfl

/-- Claim C5.  The text written by the save handler splits on newlines into:
six header lines (area, flux, max current, max voltage, fill factor,
efficiency — each beginning with `#`, each value in its fixed printf
format), the `# Voltage⟨tab⟩Current` column-header line, then exactly `N`
data lines `"%0.5f⟨tab⟩%0.5g" % (voltage[j], current[j])`, and the final
newline. -/
theorem save_file_structure (st : PState)
    (hv : st.voltage.length = st.N) (hc : st.current.length = st.N) :
    splitCh '\n' (save_clicked st).2 =
      [("# Area = ").data ++ fmtFixedL 5 st.area ++ (" (units?)").data,
       ("# Flux = ").data ++ fmtFixedL 5 st.flux ++ (" (units?)").data,
       ("# Max Current = ").data ++ fmtFixedL 5 st.Imax ++ (" mA").data,
       ("# Max Voltage = ").data ++ fmtFixedL 5 st.Vmax ++ (" V").data,
       ("# Fill Factor = ").data ++ fmtFixedL 3 st.fillFactor ++ (" ").data,
       ("# Efficiency = ").data ++ fmtFixedL 3 st.efficiency,
       ("# Voltage\tCurrent").data]
      ++ (List.range st.N).map
          (fun j => fmtFixedL 5 (st.voltage.getD j 0) ++ '\t' :: fmtGL 5 (st.current.getD j 0))
      ++ [[]] ∧
    (∀ l ∈ (splitCh '\n' (save_clicked st).2).take 7, l.head? = some '#') ∧
    ((List.range st.N).map
        (fun j => fmtFixedL 5 (st.voltage.getD j 0) ++ '\t' :: fmtGL 5 (st.current.getD j 0))).length
      = st.N := by
  have hg : ∀ x ∈ List.range st.N, dataRow st x =
      (fmtFixedL 5 (st.voltage.getD x 0) ++ '\t' :: fmtGL 5 (st.current.getD x 0)) ++ ['\n'] := by
    intro x _
    simp [dataRow]
  have hf : ∀ x ∈ List.range st.N,
      noSep '\n' (fmtFixedL 5 (st.voltage.getD x 0) ++ '\t' :: fmtGL 5 (st.current.getD x 0)) := by
    intro x _ c hcc
    rcases List.mem_append.mp hcc with hcc | hcc
    · exact fmtFixedL_ne_nl _ _ c hcc
    · rcases List.mem_cons.mp hcc with rfl | hcc
      · decide
      · exact fmtGL_ne_nl _ _ c hcc
  have key : splitCh '\n' (save_clicked st).2 =
      [("# Area = ").data ++ fmtFixedL 5 st.area ++ (" (units?)").data,
       ("# Flux = ").data ++ fmtFixedL 5 st.flux ++ (" (units?)").data,
       ("# Max Current = ").data ++ fmtFixedL 5 st.Imax ++ (" mA").data,
       ("# Max Voltage = ").data ++ fmtFixedL 5 st.Vmax ++ (" V").data,
       ("# Fill Factor = ").data ++ fmtFixedL 3 st.fillFactor ++ (" ").data,
       ("# Efficiency = ").data ++ fmtFixedL 3 st.efficiency,
       ("# Voltage\tCurrent").data]
      ++ (List.range st.N).map
          (fun j => fmtFixedL 5 (st.voltage.getD j 0) ++ '\t' :: fmtGL 5 (st.current.getD j 0))
      ++ [[]] := by
    show splitCh '\n' (saveContentsL st) = _
    have assoc : saveContentsL st =
        ("# Area = ").data ++ (fmtFixedL 5 st.area ++ ((" (units?)\n").data ++ (("# Flux = ").data ++ (fmtFixedL 5 st.flux ++ ((" (units?)\n").data ++ (("# Max Current = ").data ++ (fmtFixedL 5 st.Imax ++ ((" mA\n").data ++ (("# Max Voltage = ").data ++ (fmtFixedL 5 st.Vmax ++ ((" V\n").data ++ (("# Fill Factor = ").data ++ (fmtFixedL 3 st.fillFactor ++ ((" \n").data ++ (("# Efficiency = ").data ++ (fmtFixedL 3 st.efficiency ++ (("\n").data ++ ((("# Voltage\tCurrent\n").data ++ List.flatten ((List.range st.N).map (fun j => dataRow st j))))))))))))))))))))) := by
      simp only [saveContentsL, List.append_assoc]
    rw [assoc]
    rw [splitCh_peelA '\n' (("# Area = ").data) (fmtFixedL 5 st.area)
          ((" (units?)").data) ((" (units?)\n").data) _
          (by decide) (by decide) (fmtFixedL_ne_nl 5 st.area) (by decide),
      splitCh_peelA '\n' (("# Flux = ").data) (fmtFixedL 5 st.flux)
          ((" (units?)").data) ((" (units?)\n").data) _
          (by decide) (by decide) (fmtFixedL_ne_nl 5 st.flux) (by decide),
      splitCh_peelA '\n' (("# Max Current = ").data) (fmtFixedL 5 st.Imax)
          ((" mA").data) ((" mA\n").data) _
          (by decide) (by decide) (fmtFixedL_ne_nl 5 st.Imax) (by decide),
      splitCh_peelA '\n' (("# Max Voltage = ").data) (fmtFixedL 5 st.Vmax)
          ((" V").data) ((" V\n").data) _
          (by decide) (by decide) (fmtFixedL_ne_nl 5 st.Vmax) (by decide),
      splitCh_peelA '\n' (("# Fill Factor = ").data) (fmtFixedL 3 st.fillFactor)
          ((" ").data) ((" \n").data) _
          (by decide) (by decide) (fmtFixedL_ne_nl 3 st.fillFactor) (by decide),
      splitCh_peelB '\n' (("# Efficiency = ").data) (fmtFixedL 3 st.efficiency)
          (("\n").data) (("# Voltage\tCurrent").data) (("# Voltage\tCurrent\n").data) _
          (by decide) (by decide) (by decide) (fmtFixedL_ne_nl 3 st.efficiency) (by decide),
      splitCh_flatten '\n' _ (fun j => dataRow st j) (List.range st.N) hg hf]
    rfl
  refine ⟨key, ?_, by simp⟩
  have t7 : (splitCh '\n' (save_clicked st).2).take 7 =
      [("# Area = ").data ++ fmtFixedL 5 st.area ++ (" (units?)").data,
       ("# Flux = ").data ++ fmtFixedL 5 st.flux ++ (" (units?)").data,
       ("# Max Current = ").data ++ fmtFixedL 5 st.Imax ++ (" mA").data,
       ("# Max Voltage = ").data ++ fmtFixedL 5 st.Vmax ++ (" V").data,
       ("# Fill Factor = ").data ++ fmtFixedL 3 st.fillFactor ++ (" ").data,
       ("# Efficiency = ").data ++ fmtFixedL 3 st.efficiency,
       ("# Voltage\tCurrent").data] := by
    rw [key]
    rfl
  intro l hl
  rw [t7] at hl
  simp only [List.mem_cons] at hl
  rcases hl with rfl | rfl | rfl | rfl | rfl | rfl | rfl | hl
  · rfl
  · rfl
  · rfl
  · rfl
  · rfl
  · rfl
  · rfl
  · simp at hl

/-- The state of the export example of the spec: the 3-point arrays with the
claimed metric values filled in. -/
def exSaved : PState :=
  { exampleState with
      Imax := mkRat 1 100
      Vmax := 1
      fillFactor := mkRat 3 10
      efficiency := mkRat 828 10000000
      voltage := [0, mkRat 1 2, 1]
      current := [mkRat 1 100, mkRat 3 500, 0] }

set_option maxRecDepth 10000 in
/-- Claim C5, witness: on the export example of the spec the saved text is
byte-for-byte the expected file. -/
theorem save_file_structure_witness :
    (exSaved.voltage.length = exSaved.N ∧ exSaved.current.length = exSaved.N) ∧
    (∀ l ∈ (splitCh '\n' (save_clicked exSaved).2).take 7, l.head? = some '#') ∧
    String.mk (save_clicked exSaved).2 =
      "# Area = 2.76000 (units?)\n# Flux = 100.00000 (units?)\n# Max Current = 0.01000 mA\n# Max Voltage = 1.00000 V\n# Fill Factor = 0.300 \n# Efficiency = 0.000\n# Voltage\tCurrent\n0.00000\t0.01\n0.50000\t0.006\n1.00000\t0\n" := by
  refine ⟨⟨by decide, by decide⟩,
    (save_file_structure exSaved (by decide) (by decide)).2.1, by decide⟩

/-! ### Claim C9 -/

/-- The invariant: all metrics still hold their zero initial values and the
labels display them. -/
def metricsAtInit (st : PState) : Prop :=
  st.Imax = 0 ∧ st.Imax_index = 0 ∧ st.IVmax = 0 ∧ st.IVmax_index = 0 ∧
  st.zero_index = 0 ∧ st.Vmax = 0 ∧ st.fillFactor = 0 ∧ st.efficiency = 0 ∧
  st.ffText = "Fill Factor: 0.00  " ∧ st.efText = "Efficiency: 0.00 "

lemma runOp_metricsAtInit (st : PState) (op : Op)
    (h : metricsAtInit st) : metricsAtInit (runOp st op) := by
  cases op with
  | select =>
      dsimp only [runOp, selectionChange, smWrite, emit, setStartDisabled,
        metricsAtInit] at h ⊢
      exact h
  | start reading =>
      dsimp only [runOp]
      split
      · rename_i s heq
        obtain ⟨st1, hp, rfl⟩ := start_clicked_ok_elim heq
        obtain ⟨v, c, -, -, rfl⟩ := processData_ok_elim hp
        dsimp only [setStartDisabled, setStopDisabled, setSaveDisabled, smWrite,
          smQuery, emit, metricsAtInit] at h ⊢
        exact h
      · rename_i s heq
        have hp := start_clicked_error_elim heq
        rcases processData_error_elim hp with ⟨-, rfl⟩ | ⟨v, -, -, rfl⟩
        · dsimp only [setStartDisabled, setStopDisabled, smWrite, smQuery, emit,
            metricsAtInit] at h ⊢
          exact h
        · dsimp only [setStartDisabled, setStopDisabled, smWrite, smQuery, emit,
            metricsAtInit] at h ⊢
          exact h
  | stop =>
      dsimp only [runOp, stop_clicked, setStartDisabled, setStopDisabled, smWrite,
        emit, metricsAtInit] at h ⊢
      exact h
  | save =>
      dsimp only [runOp, save_clicked, setSaveDisabled, emit, metricsAtInit] at h ⊢
      exact h
  | setArea t =>
      cases hpf : parseFloat t with
      | none => simp only [runOp, areaSet, hpf]; exact h
      | some a =>
          simp only [runOp, areaSet, hpf]
          dsimp only [metricsAtInit] at h ⊢
          exact h
  | setFlux t =>
      cases hpf : parseFloat t with
      | none => simp only [runOp, fluxSet, hpf]; exact h
      | some a =>
          simp only [runOp, fluxSet, hpf]
          dsimp only [metricsAtInit] at h ⊢
          exact h
  | setMinV t =>
      cases hpf : parseFloat t with
      | none =>
          simp only [runOp, minVset, hpf]
          exact h
      | some a =>
          simp only [runOp, minVset, hpf]
          dsimp only [smWrite, emit, metricsAtInit] at h ⊢
          exact h
  | setMaxV t =>
      cases hpf : parseFloat t with
      | none =>
          simp only [runOp, maxVset, hpf]
          exact h
      | some a =>
          simp only [runOp, maxVset, hpf]
          dsimp only [smWrite, emit, metricsAtInit] at h ⊢
          exact h
  | setPort p =>
      dsimp only [runOp, portSet, smWrite, emit, metricsAtInit] at h ⊢
      exact h
  | updateOut =>
      obtain ⟨h1, h2, h3, h4, h5, h6, h7, h8, h9, h10⟩ := h
      refine ⟨h1, h2, h3, h4, h5, h6, h7, h8, ?_, ?_⟩
      · show "Fill Factor: " ++ fmtFixed 2 st.fillFactor ++ "  " = _
        rw [h7]; decide
      · show "Efficiency: " ++ fmtFixed 2 st.efficiency ++ " " = _
        rw [h8]; decide

lemma run_metricsAtInit (ops : List Op) :
    ∀ st : PState, metricsAtInit st → metricsAtInit (run st ops) := by
  induction ops with
  | nil => exact fun st h => h
  | cons op ops ih =>
      intro st h
      exact ih (runOp st op) (runOp_metricsAtInit st op h)

/-- Claim C9.  In every reachable state — after any sequence of instrument
selections, sweeps, stops, saves, parameter edits, port changes and label
refreshes — the derived-metric variables `Imax`, `Imax_index`, `IVmax`,
`IVmax_index`, `zero_index`, `Vmax`, `fillFactor` and `efficiency` still
hold their zero initial values (no operation ever assigns them), and the
displayed fill factor and efficiency therefore always read `0.00`. -/
theorem metrics_never_assigned (ops : List Op) :
    (run initState ops).Imax = 0 ∧ (run initState ops).Imax_index = 0 ∧
    (run initState ops).IVmax = 0 ∧ (run initState ops).IVmax_index = 0 ∧
    (run initState ops).zero_index = 0 ∧ (run initState ops).Vmax = 0 ∧
    (run initState ops).fillFactor = 0 ∧ (run initState ops).efficiency = 0 ∧
    (run initState ops).ffText = "Fill Factor: 0.00  " ∧
    (run initState ops).efText = "Efficiency: 0.00 " :=
  run_metricsAtInit ops initState
    ⟨rfl, rfl, rfl, rfl, rfl, rfl, rfl, rfl, by decide, by decide⟩

end SIApp
